import Mathlib

/-!
Verification of the window-record / window-collection core of `wm_win_tool.py`
(frispete/wm-win-tool).  Strings are modelled as lists of characters; every
definition below is a direct translation of the corresponding Python function.
-/

set_option maxRecDepth 4000

/-- Strings are modelled as lists of characters. -/
abbrev Str := List Char

/-- Prepend a character to the first chunk of a chunk list (helper for the
    character-level splitting functions). -/
def consHead (c : Char) : List Str → List Str
  | [] => [[c]]
  | hd :: tl => (c :: hd) :: tl

/-- Does the list start with a space character? -/
def headIsSpace : Str → Bool
  | [] => false
  | c :: _ => c == ' '

/-- Does the string contain the two-character separator `", "` used by the
    on-disk session format? -/
def hasSep : Str → Bool
  | [] => false
  | c :: rest => (c == ',' && headIsSpace rest) || hasSep rest

/-- Python `s.split(', ', maxsplit)`: split on the first `maxsplit`
    non-overlapping occurrences of `", "`, scanning left to right; the
    remainder stays in the last chunk.  Used by `Win._fromfile`. -/
def splitCS : Nat → Str → List Str
  | _, [] => [[]]
  | 0, c :: rest => [c :: rest]
  | _+1, [c] => [[c]]
  | m+1, c :: c2 :: rest =>
    if c == ',' && c2 == ' ' then [] :: splitCS m rest
    else consHead c (splitCS (m+1) (c2 :: rest))

/-- Python `', '.join(fields)`: used by `Win._tofile`. -/
def joinCS : List Str → Str
  | [] => []
  | f :: fs =>
    match fs with
    | [] => f
    | _ :: _ => f ++ ',' :: ' ' :: joinCS fs

/-- A window record, as built by `Win.__init__` from `wm_win_tool.py`.
    All eleven fields hold the raw strings coming from `wmctrl` output or
    a session file (the Python code never converts them to numbers). -/
structure Win where
  winid : Str
  desktop : Str
  pid : Str
  x : Str
  y : Str
  w : Str
  h : Str
  cls : Str
  host : Str
  title : Str
  shaded : Str
deriving DecidableEq, Repr

/-- The record built from `Win._defaults`
    (`'0, -1, 0, 0, 0, 0, 0, , , , N'.split(', ')`). -/
def defaultWin : Win :=
  { winid := ['0'], desktop := ['-', '1'], pid := ['0'],
    x := ['0'], y := ['0'], w := ['0'], h := ['0'],
    cls := [], host := [], title := [], shaded := ['N'] }

/-- `Win(*args)`: positional arguments fill the fields in declared order,
    missing positions fall back to `Win._defaults`. -/
def mkWin (args : List Str) : Win :=
  { winid := args.getD 0 defaultWin.winid,
    desktop := args.getD 1 defaultWin.desktop,
    pid := args.getD 2 defaultWin.pid,
    x := args.getD 3 defaultWin.x,
    y := args.getD 4 defaultWin.y,
    w := args.getD 5 defaultWin.w,
    h := args.getD 6 defaultWin.h,
    cls := args.getD 7 defaultWin.cls,
    host := args.getD 8 defaultWin.host,
    title := args.getD 9 defaultWin.title,
    shaded := args.getD 10 defaultWin.shaded }

/-- `Win._stored_tuple`: the eight persisted fields, in the fixed order of
    `Win._storefields` (`desktop, shaded, x, y, w, h, cls, title`). -/
def storedTuple (a : Win) : List Str :=
  [a.desktop, a.shaded, a.x, a.y, a.w, a.h, a.cls, a.title]

/-- `Win._tofile`: join the eight persisted fields with `', '`. -/
def winTofile (a : Win) : Str :=
  joinCS (storedTuple a)

/-- `Win._fromfile`: split the line on `', '` with `maxsplit = 7` and merge
    the resulting keyword arguments over the defaults (fields with no part
    present keep their default value, extra parts are impossible because of
    the maxsplit). -/
def winFromfile (line : Str) : Win :=
  let p := splitCS 7 line
  { defaultWin with
    desktop := p.getD 0 defaultWin.desktop,
    shaded := p.getD 1 defaultWin.shaded,
    x := p.getD 2 defaultWin.x,
    y := p.getD 3 defaultWin.y,
    w := p.getD 4 defaultWin.w,
    h := p.getD 5 defaultWin.h,
    cls := p.getD 6 defaultWin.cls,
    title := p.getD 7 defaultWin.title }

/-- `Win.cmp_all`: `False` when `other` is absent, otherwise equality of the
    eight-field stored tuples. -/
def cmp_all (a : Win) (other : Option Win) : Bool :=
  match other with
  | some b => storedTuple a == storedTuple b
  | none => false

/-- `Win.cmp_desktop`. -/
def cmp_desktop (a : Win) (other : Option Win) : Bool :=
  match other with
  | some b => a.desktop == b.desktop
  | none => false

/-- `Win.cmp_shaded`. -/
def cmp_shaded (a : Win) (other : Option Win) : Bool :=
  match other with
  | some b => a.shaded == b.shaded
  | none => false

/-- `Win.cmp_geometry`: all four of `x, y, w, h` must agree. -/
def cmp_geometry (a : Win) (other : Option Win) : Bool :=
  match other with
  | some b => a.x == b.x && a.y == b.y && a.w == b.w && a.h == b.h
  | none => false

/-- `Win.geostr`: `'0,%s,%s,%s,%s' % (x, y, w, h)`. -/
def geostr (a : Win) : Str :=
  ['0', ','] ++ a.x ++ [','] ++ a.y ++ [','] ++ a.w ++ [','] ++ a.h

/-- `Win.__eq__`: two windows are equal iff `title` and `cls` match; a falsy
    (absent) other compares unequal. -/
def winEq (a : Win) (other : Option Win) : Bool :=
  match other with
  | some b => a.title == b.title && a.cls == b.cls
  | none => false

/-- `WinList.match`: `self._wl[self._wl.index(win)]` with `IndexError` and
    `ValueError` mapped to `None` — i.e. the first stored record comparing
    equal (by `Win.__eq__`) to the argument, if any. -/
def matchWin (wl : List Win) (w : Win) : Option Win :=
  wl.find? (fun x => winEq x (some w))

/-- `win in self._wl` membership test, via `Win.__eq__`. -/
def winIn (wl : List Win) (w : Win) : Bool :=
  wl.any (fun x => winEq x (some w))

/-- `WinList.__eq__`: a falsy `other` (an empty list) compares unequal;
    otherwise both containment loops must succeed, each record matched by
    identity and then compared on all stored fields. -/
def winlistEq (a b : List Win) : Bool :=
  if b.isEmpty then false
  else
    a.all (fun w => cmp_all w (matchWin b w)) &&
    b.all (fun o => cmp_all o (matchWin a o))

/-- Python whitespace, as recognised by `str.split()` with no separator. -/
def isWs (c : Char) : Bool :=
  c == ' ' || c == '\t' || c == '\n' || c == '\r' || c == '\x0b' || c == '\x0c'

/-- The character scan behind Python `s.split(maxsplit = k)` with no
    separator: `k` counts the splits still allowed; the middle argument is
    `none` between words (leading whitespace being skipped) and carries the
    reversed current word while one is being read.  Once the split budget is
    exhausted, the remainder of the string (leading whitespace stripped)
    becomes the final chunk. -/
def splitWsGo : Nat → Option Str → Str → List Str
  | _, none, [] => []
  | k, none, c :: rest =>
    if isWs c then splitWsGo k none rest
    else
      match k with
      | 0 => [c :: rest]
      | k+1 => splitWsGo k (some [c]) rest
  | _, some revcur, [] => [revcur.reverse]
  | k, some revcur, c :: rest =>
    if isWs c then revcur.reverse :: splitWsGo k none rest
    else splitWsGo k (some (c :: revcur)) rest

/-- Python `s.split(maxsplit = m)` (no separator): skip leading whitespace,
    extract up to `m` whitespace-delimited words, and keep the remainder
    (leading whitespace stripped) as the final chunk.  Used by
    `Win._fromstr` on `wmctrl -lGpx` output lines. -/
def splitWs (m : Nat) (s : Str) : List Str :=
  splitWsGo m none s

/-- `Win._fromstr`: `Win(*line.split(maxsplit = 9))` — because `Win.__init__`
    pads missing positional arguments with the declared defaults, this never
    fails, whatever the number of fields on the line. -/
def winFromstr (line : Str) : Win :=
  mkWin (splitWs 9 line)

/-- Python `buf.split('\n')`. -/
def splitNl : Str → List Str
  | [] => [[]]
  | '\n' :: rest => [] :: splitNl rest
  | c :: rest => consHead c (splitNl rest)

/-- `WinList.fromstr`: for every non-empty line of the buffer, append the
    record parsed by `Win._fromstr` (the `except TypeError` handler in the
    source never fires, since `Win.__init__` accepts any argument count). -/
def winlistFromstr (buf : Str) : List Win :=
  if buf.isEmpty then []
  else (splitNl buf).foldl
    (fun wl line => if line.isEmpty then wl else wl ++ [winFromstr line]) []

/-- The errors that can escape `WinList.__isub__`. -/
inductive RemoveError where
  /-- The uncaught `ValueError` raised by `self._wl.index(win)` when no
      element compares equal to `win`. -/
  | valueErrorNotInList : RemoveError
  /-- The `WinNotFound(win)` exception the `except IndexError` handler
      would raise. -/
  | winNotFound (w : Win) : RemoveError
deriving DecidableEq, Repr

/-- `WinList.__isub__`: `del self._wl[self._wl.index(win)]` inside a
    `try/except IndexError`.  When no element matches, `list.index` raises
    `ValueError`, which the handler does not catch, so the exception that
    escapes is `ValueError`, never `WinNotFound`. -/
def isub (wl : List Win) (w : Win) : Except RemoveError (List Win) :=
  match wl.findIdx? (fun x => winEq x (some w)) with
  | some i => .ok (wl.eraseIdx i)
  | none => .error .valueErrorNotInList

/-- The selector configuration relevant to `filter_winlist` (from the
    global parameter object `gpar`).  The choice between `fnmatch` and
    `re.match` (the `regexp` flag) is abstracted into the `matcher`
    argument that the filtering functions take. -/
structure Gpar where
  bracket : Bool
  classes : List Str
  titles : List Str
deriving Repr

/-- The inner `match` helper of `filter_winlist`: does any pattern of the
    list match the string, for the configured matcher? -/
def patMatch (matcher : Str → Str → Bool) (patlist : List Str) (s : Str) : Bool :=
  patlist.any (fun pat => matcher pat s)

/-- The scan behind `re.match('\[.*?\]', title)` after the opening bracket:
    the non-greedy body runs to the first `]`; `.` does not match a newline. -/
def scanToBracket : Str → Option Str
  | [] => none
  | ']' :: _ => some [']']
  | '\n' :: _ => none
  | c :: rest => (scanToBracket rest).map (fun t => c :: t)

/-- `re.match('\[.*?\]', title)`: the title must start with `[`, and the
    match extends to the first following `]`. -/
def bracketMatch (title : Str) : Option Str :=
  match title with
  | '[' :: rest => (scanToBracket rest).map (fun t => '[' :: t)
  | _ => none

/-- The `for win in srclist` loop of `filter_winlist`, with `dst` the
    accumulated `dstlist`.  The windows are supplied in the order the list
    iterator yields them.  A `WinDuplicate` raised by `dstlist += win` is
    caught by the `try/except` that wraps the whole loop, so the loop stops
    and the accumulated list is returned as is. -/
def filterLoop (matcher : Str → Str → Bool) (g : Gpar) (dst : List Win) :
    List Win → List Win
  | [] => dst
  | win :: rest =>
    if g.bracket then
      match bracketMatch win.title with
      | some frag =>
        let win2 := { win with title := frag }
        if winIn dst win2 then dst
        else filterLoop matcher g (dst ++ [win2]) rest
      | none => filterLoop matcher g dst rest
    else if !g.classes.isEmpty then
      if patMatch matcher g.classes win.cls then
        if winIn dst win then dst
        else filterLoop matcher g (dst ++ [win]) rest
      else filterLoop matcher g dst rest
    else if !g.titles.isEmpty then
      if patMatch matcher g.titles win.title then
        if winIn dst win then dst
        else filterLoop matcher g (dst ++ [win]) rest
      else filterLoop matcher g dst rest
    else
      if winIn dst win then dst
      else filterLoop matcher g (dst ++ [win]) rest

/-- The window one iteration of the `filter_winlist` loop would add to
    `dstlist` (with the bracket fragment substituted into the title), or
    `none` when the window is dropped by the active selector. -/
def stepTarget (matcher : Str → Str → Bool) (g : Gpar) (win : Win) : Option Win :=
  if g.bracket then
    match bracketMatch win.title with
    | some frag => some { win with title := frag }
    | none => none
  else if !g.classes.isEmpty then
    if patMatch matcher g.classes win.cls then some win else none
  else if !g.titles.isEmpty then
    if patMatch matcher g.titles win.title then some win else none
  else
    some win

/-- `filter_winlist`: run the selector loop from an empty destination list,
    then refresh the `shaded` field of every surviving window from the
    `xprop _NET_WM_STATE` gateway (modelled by `shadedOf` on the window id). -/
def filter_winlist (matcher : Str → Str → Bool) (shadedOf : Str → Bool)
    (g : Gpar) (src : List Win) : List Win :=
  (filterLoop matcher g [] src).map
    (fun w => { w with shaded := if shadedOf w.winid then ['S'] else ['N'] })

/-- Strip Python whitespace from both ends (the normalisation `int()`
    applies to its argument). -/
def stripWs (s : Str) : Str :=
  ((s.dropWhile isWs).reverse.dropWhile isWs).reverse

/-- Value of an ASCII decimal digit. -/
def digitVal (c : Char) : Option Nat :=
  if '0' ≤ c ∧ c ≤ '9' then some (c.toNat - '0'.toNat) else none

/-- Continue parsing the digits of an integer literal; a single underscore
    may separate two digits (Python 3 grouping). -/
def parseDigitsAux : Nat → Str → Option Nat
  | acc, [] => some acc
  | acc, '_' :: c :: rest =>
    match digitVal c with
    | some d => parseDigitsAux (acc * 10 + d) rest
    | none => none
  | _, ['_'] => none
  | acc, c :: rest =>
    match digitVal c with
    | some d => parseDigitsAux (acc * 10 + d) rest
    | none => none

/-- The digit run of an integer literal: at least one digit, with optional
    single underscores between digits. -/
def parseDigits : Str → Option Nat
  | [] => none
  | c :: rest =>
    match digitVal c with
    | some d => parseDigitsAux d rest
    | none => none

/-- Python `int(s)` on ASCII input: optional surrounding whitespace, an
    optional sign, then a digit run; `None` models the `ValueError`. -/
def pyParseInt (s : Str) : Option Int :=
  match stripWs s with
  | '+' :: ds => (parseDigits ds).map (fun n => (n : Int))
  | '-' :: ds => (parseDigits ds).map (fun n => -(n : Int))
  | ds => (parseDigits ds).map (fun n => (n : Int))

/-- Index of the last occurrence of a character. -/
def rfindIdx (c : Char) : Str → Option Nat
  | [] => none
  | x :: rest =>
    match rfindIdx c rest with
    | some i => some (i + 1)
    | none => if x == c then some 0 else none

/-- The index at which the base name starts: one past the last slash, or
    the start of the string (`sepIndex + 1` in `posixpath.splitext`). -/
def baseStart (p : Str) : Nat :=
  match rfindIdx '/' p with
  | none => 0
  | some si => si + 1

/-- `os.path.splitext` (posix): split at the last dot that lies after the
    last slash, unless every character between the start of the base name
    and that dot is itself a dot (leading dots never start an extension). -/
def splitext (p : Str) : Str × Str :=
  match rfindIdx '.' p with
  | none => (p, [])
  | some d =>
    if baseStart p ≤ d ∧
       ((p.drop (baseStart p)).take (d - baseStart p)).any (fun c => c != '.') = true then
      (p.take d, p.drop d)
    else
      (p, [])

/-- Python `l[i]` for a (possibly negative) integer index: negative indices
    count from the end, out-of-range indices raise `IndexError` (`none`). -/
def pyIndex {α : Type} (l : List α) (i : Int) : Option α :=
  let j : Int := if i < 0 then i + l.length else i
  if j < 0 then none else l.get? j.toNat

/-- The timestamp-matching loop of `restore`: the first session filename
    equal to the argument, or whose name without extension equals it. -/
def findSession (ts : Str) : List Str → Option Str
  | [] => none
  | fn :: rest =>
    if fn == ts then some fn
    else if (splitext fn).1 == ts then some fn
    else findSession ts rest

/-- The session argument after the `int()` attempt in `restore`: a missing
    argument defaults to index `-1`, an integer argument is an index, and
    anything else is kept as a timestamp string. -/
inductive WhichArg where
  | idx (i : Int) : WhichArg
  | name (ts : Str) : WhichArg
deriving Repr

/-- The argument-classification prologue of `restore`. -/
def parseWhich : Option Str → WhichArg
  | none => .idx (-1)
  | some a =>
    match pyParseInt a with
    | some i => .idx i
    | none => .name a

/-- Outcome of the session-selection phase of `restore`. -/
inductive SelectResult where
  /-- A session file was selected. -/
  | selected (fn : Str) : SelectResult
  /-- `exit(2, 'no stored sessions (yet), try store')`. -/
  | noStoredSessions : SelectResult
  /-- `exit(2, 'no such session: ...')`. -/
  | noSuchSession : SelectResult
deriving DecidableEq, Repr

/-- The session-selection logic of `restore`: classify the argument, fail
    on an empty session list before any selection, then select by integer
    index (Python semantics, out of range fatal) or by filename/timestamp
    match (the `elif ts:` guard skips the search for an empty string). -/
def selectSession (slist : List Str) (arg : Option Str) : SelectResult :=
  match parseWhich arg with
  | .idx i =>
    if slist.isEmpty then .noStoredSessions
    else
      match pyIndex slist i with
      | some fn => .selected fn
      | none => .noSuchSession
  | .name ts =>
    if slist.isEmpty then .noStoredSessions
    else if ts.isEmpty then .noSuchSession
    else
      match findSession ts slist with
      | some fn => .selected fn
      | none => .noSuchSession

/-- The corrective gateway actions `restore` can issue for one window. -/
inductive WmAction where
  /-- `wmctrl -ir winid -t desktop`. -/
  | moveDesktop (winid desktop : Str) : WmAction
  /-- `wmctrl -ir winid -e geostr`. -/
  | adjustGeometry (winid geo : Str) : WmAction
  /-- `wmctrl -ir winid -b toggle,shaded`. -/
  | toggleShaded (winid : Str) : WmAction
deriving DecidableEq, Repr

/-- The body of the reconciliation loop of `restore` for one stored record:
    look up the live record by identity; when absent do nothing; when
    present issue the desktop, geometry and shade corrections, in that
    order, each only when the corresponding comparison fails. -/
def restoreStep (curlist : List Win) (sto : Win) : List WmAction :=
  match matchWin curlist sto with
  | none => []
  | some cur =>
    (if cmp_desktop cur (some sto) then []
     else [WmAction.moveDesktop cur.winid sto.desktop]) ++
    (if cmp_geometry cur (some sto) then []
     else [WmAction.adjustGeometry cur.winid (geostr sto)]) ++
    (if cmp_shaded cur (some sto) then []
     else [WmAction.toggleShaded cur.winid])

/-- Outcome of one invocation of `store`. -/
inductive StoreOutcome where
  /-- `exit(3)`: the filtered list is empty. -/
  | noMatchExit : StoreOutcome
  /-- The list equals the most recent session and `force` is off: return
      without writing. -/
  | unchangedSkip : StoreOutcome
  /-- A new timestamped session file is written. -/
  | wroteNew : StoreOutcome
deriving DecidableEq, Repr

/-- The decision logic of `store`: `prev` is the most recent stored session
    (when one exists), loaded from disk. -/
def storeDecision (curlist : List Win) (prev : Option (List Win))
    (force : Bool) : StoreOutcome :=
  if curlist.isEmpty then .noMatchExit
  else
    match prev with
    | some stolist =>
      if winlistEq curlist stolist && !force then .unchangedSkip
      else .wroteNew
    | none => .wroteNew

/-- Sample live window: id 1, desktop 1, title `t`, class `c`, x = 5. -/
def sampleA : Win :=
  { defaultWin with
    winid := ['1'], desktop := ['1'],
    title := ['t'], cls := ['c'], x := ['5'] }

/-- Sample window with the same identity as `sampleA` but another geometry. -/
def sampleA2 : Win :=
  { defaultWin with
    winid := ['2'], desktop := ['1'],
    title := ['t'], cls := ['c'], x := ['9'] }

/-- Sample window with a different identity (title `u`, class `d`). -/
def sampleB : Win :=
  { defaultWin with winid := ['3'], title := ['u'], cls := ['d'] }

/-- Sample record whose class contains the on-disk separator `", "`. -/
def sampleSepCls : Win :=
  { defaultWin with cls := ['a', ',', ' ', 'b'], title := ['t'] }

/-- Sample record whose title contains the on-disk separator `", "`. -/
def sampleSepTitle : Win :=
  { defaultWin with cls := ['a'], title := ['t', ',', ' ', 'u'] }

/-- Sample stored record for the restore example: desktop 2, title `Y`,
    class `X`, geometry 0,0,100,100. -/
def sampleSto : Win :=
  { defaultWin with
    desktop := ['2'], title := ['Y'], cls := ['X'],
    x := ['0'], y := ['0'], w := ['1', '0', '0'], h := ['1', '0', '0'] }

/-- Sample live record matching `sampleSto` except for the desktop. -/
def sampleLive : Win :=
  { defaultWin with
    winid := ['9'], desktop := ['1'], title := ['Y'], cls := ['X'],
    x := ['0'], y := ['0'], w := ['1', '0', '0'], h := ['1', '0', '0'] }

/-- A pattern matcher that matches nothing. -/
def matchNever : Str → Str → Bool := fun _ _ => false

/-- A pattern matcher requiring the pattern to equal the string. -/
def matchEq : Str → Str → Bool := fun p s => p == s

/-- No selector configured. -/
def gparNone : Gpar := { bracket := false, classes := [], titles := [] }

/-- Class pattern `c` and title pattern `u` configured together. -/
def gparCT : Gpar := { bracket := false, classes := [['c']], titles := [['u']] }

/-- Identity-duplicate-freedom of a window list: no two records compare
    equal under `Win.__eq__` (the invariant the deduplicating filter
    establishes). -/
def IdNodup (l : List Win) : Prop :=
  l.Pairwise (fun a b => winEq a (some b) = false)

/-- `Win.__eq__` decides exactly title-and-class equality. -/
theorem winEq_some_iff (a b : Win) :
    winEq a (some b) = true ↔ a.title = b.title ∧ a.cls = b.cls := by
  simp [winEq]

/-- A `WinList.match` miss means no stored record shares the identity. -/
theorem matchWin_eq_none_iff (wl : List Win) (w : Win) :
    matchWin wl w = none ↔ ∀ x ∈ wl, ¬(x.title = w.title ∧ x.cls = w.cls) := by
  simp [matchWin, List.find?_eq_none, winEq]

/-- A `WinList.match` hit is a member of the list sharing the identity. -/
theorem matchWin_eq_some (wl : List Win) (w x : Win)
    (h : matchWin wl w = some x) :
    x ∈ wl ∧ x.title = w.title ∧ x.cls = w.cls := by
  have h1 := List.mem_of_find?_eq_some h
  have h2 := List.find?_some h
  simp [winEq] at h2
  exact ⟨h1, h2⟩

/-- Claim C1: a record matches another exactly when both `title` and `cls`
    agree — every other field is irrelevant — and `WinList.match` returns
    the stored record sharing identity with the argument when one exists
    and `None` otherwise. -/
theorem c1_identity_matching :
    (∀ a b : Win, winEq a (some b) = true ↔ a.title = b.title ∧ a.cls = b.cls) ∧
    (∀ (wl : List Win) (w : Win),
      (matchWin wl w = none ↔ ∀ x ∈ wl, ¬(x.title = w.title ∧ x.cls = w.cls)) ∧
      (∀ x : Win, matchWin wl w = some x →
        x ∈ wl ∧ x.title = w.title ∧ x.cls = w.cls)) :=
  ⟨winEq_some_iff, fun wl w =>
    ⟨matchWin_eq_none_iff wl w, fun x h => matchWin_eq_some wl w x h⟩⟩

/-- Claim C1, instantiated: records differing only in geometry and window
    id match; a record is found by identity; a missing identity yields
    `None`. -/
theorem c1_identity_matching_witness :
    winEq sampleA (some sampleA2) = true ∧
    (sampleA ∈ [sampleB, sampleA] ∧ sampleA.title = sampleA2.title ∧
      sampleA.cls = sampleA2.cls) ∧
    matchWin [sampleB] sampleA = none :=
  ⟨(c1_identity_matching.1 sampleA sampleA2).mpr (by decide),
   (c1_identity_matching.2 [sampleB, sampleA] sampleA2).2 sampleA (by decide),
   (c1_identity_matching.2 [sampleB] sampleA).1.mpr (by decide)⟩

/-- With the split budget exhausted, the whole string is one chunk. -/
theorem splitCS_zero (s : Str) : splitCS 0 s = [s] := by
  cases s <;> simp [splitCS]

/-- Splitting a separator-free field off the front of a `", "`-joined
    string consumes exactly one split. -/
theorem splitCS_sep (m : Nat) (f t : Str) (hf : hasSep f = false) :
    splitCS (m + 1) (f ++ ',' :: ' ' :: t) = f :: splitCS m t := by
  induction f with
  | nil =>
    have e2 : ((',' : Char) == ',') = true := by decide
    have e3 : ((' ' : Char) == ' ') = true := by decide
    simp [splitCS, e2, e3]
  | cons c f2 ih =>
    have hf' : ((c == ',' && headIsSpace f2) || hasSep f2) = false := hf
    obtain ⟨hf1, hf2⟩ := Bool.or_eq_false_iff.mp hf'
    cases f2 with
    | nil =>
      have e1 : ((',' : Char) == ' ') = false := by decide
      have e2 : ((',' : Char) == ',') = true := by decide
      have e3 : ((' ' : Char) == ' ') = true := by decide
      show splitCS (m + 1) (c :: ',' :: ' ' :: t) = [c] :: splitCS m t
      simp [splitCS, consHead, e1, e2, e3]
    | cons c2 f3 =>
      have hcond : (c == ',' && c2 == ' ') = false := by
        simpa [headIsSpace] using hf1
      show splitCS (m + 1) (c :: c2 :: (f3 ++ ',' :: ' ' :: t))
          = (c :: c2 :: f3) :: splitCS m t
      rw [splitCS, hcond]
      have ih2 := ih hf2
      simp only [List.cons_append] at ih2
      simp [ih2, consHead]

/-- Splitting a `", "`-joined field list with maxsplit one less than the
    field count recovers the fields, provided no field except the last
    contains the separator. -/
theorem splitCS_joinCS (fs : List Str) (hne : fs ≠ [])
    (h : ∀ f ∈ fs.dropLast, hasSep f = false) :
    splitCS (fs.length - 1) (joinCS fs) = fs := by
  induction fs with
  | nil => exact absurd rfl hne
  | cons f fs ih =>
    cases fs with
    | nil => simpa [joinCS] using splitCS_zero f
    | cons f2 fs2 =>
      have hf : hasSep f = false := by
        apply h f
        simp
      have hrest : ∀ g ∈ (f2 :: fs2).dropLast, hasSep g = false := by
        intro g hg
        apply h g
        simp at hg ⊢
        exact Or.inr hg
      have hj : joinCS (f :: f2 :: fs2) = f ++ ',' :: ' ' :: joinCS (f2 :: fs2) := rfl
      have hlen : (f :: f2 :: fs2).length - 1 = ((f2 :: fs2).length - 1) + 1 := by
        simp
      rw [hj, hlen, splitCS_sep _ _ _ hf, ih (by simp) hrest]

/-- Claim C2 (amended): the stored-line serialization round-trips —
    `Win._fromfile(r._tofile()).cmp_all(r)` — for all values of the eight
    persisted fields, provided none of the first seven fields (`desktop,
    shaded, x, y, w, h, cls`) contains the `', '` separator; the `title`
    field alone may contain it. -/
theorem c2_roundtrip_amended (r : Win)
    (h1 : hasSep r.desktop = false) (h2 : hasSep r.shaded = false)
    (h3 : hasSep r.x = false) (h4 : hasSep r.y = false)
    (h5 : hasSep r.w = false) (h6 : hasSep r.h = false)
    (h7 : hasSep r.cls = false) :
    cmp_all (winFromfile (winTofile r)) (some r) = true := by
  have hs : splitCS 7 (joinCS [r.desktop, r.shaded, r.x, r.y, r.w, r.h, r.cls, r.title])
      = [r.desktop, r.shaded, r.x, r.y, r.w, r.h, r.cls, r.title] := by
    have h8 := splitCS_joinCS (storedTuple r) (by simp [storedTuple])
      (by intro f hf
          simp [storedTuple, List.dropLast] at hf
          rcases hf with h | h | h | h | h | h | h <;> subst h <;> assumption)
    simpa [storedTuple] using h8
  simp [winFromfile, winTofile, hs, cmp_all, storedTuple]

/-- Claim C2, counterexample: for a record whose class contains `', '`,
    the claimed round trip fails (the separator shifts the split). -/
theorem c2_roundtrip_counterexample :
    cmp_all (winFromfile (winTofile sampleSepCls)) (some sampleSepCls) = false := by
  decide

/-- Claim C2 (amended), instantiated at a record whose title contains the
    `', '` separator. -/
theorem c2_roundtrip_amended_witness :
    cmp_all (winFromfile (winTofile sampleSepTitle)) (some sampleSepTitle) = true :=
  c2_roundtrip_amended sampleSepTitle (by decide) (by decide) (by decide)
    (by decide) (by decide) (by decide) (by decide)

/-- `Win.__eq__` is reflexive. -/
theorem winEq_self (a : Win) : winEq a (some a) = true := by
  simp [winEq]

/-- `Win.cmp_all` is reflexive. -/
theorem cmp_all_self (a : Win) : cmp_all a (some a) = true := by
  simp [cmp_all]

/-- In an identity-duplicate-free list, `WinList.match` finds each member
    itself. -/
theorem matchWin_self (l : List Win) (hl : IdNodup l) (w : Win) (hw : w ∈ l) :
    matchWin l w = some w := by
  induction l with
  | nil => cases hw
  | cons x t ih =>
    rcases List.mem_cons.mp hw with h | h
    · subst h
      simp [matchWin, List.find?_cons_of_pos, winEq_self]
    · obtain ⟨hx, ht⟩ := List.pairwise_cons.mp hl
      have hxw : winEq x (some w) = false := hx w h
      have ihx := ih ht h
      simp [matchWin] at ihx ⊢
      exact Or.inr ⟨hxw, ihx⟩

/-- Claim C3 (amended): collection equality is symmetric for every pair of
    collections; and every non-empty collection whose records are pairwise
    distinct in identity equals itself.  (The empty collection fails the
    truthiness guard and does not equal itself, and a collection holding
    two same-identity records with different stored fields also fails
    self-equality.) -/
theorem c3_collection_eq_symm_refl :
    (∀ a b : List Win, winlistEq a b = winlistEq b a) ∧
    (∀ a : List Win, a ≠ [] → IdNodup a → winlistEq a a = true) := by
  constructor
  · intro a b
    match a, b with
    | [], [] => rfl
    | [], y :: t => simp [winlistEq, matchWin, cmp_all]
    | x :: s, [] => simp [winlistEq, matchWin, cmp_all]
    | x :: s, y :: t =>
      simp only [winlistEq, List.isEmpty_cons, if_false, Bool.false_eq_true]
      exact Bool.and_comm _ _
  · intro a hne hnd
    have hall : ∀ w ∈ a, cmp_all w (matchWin a w) = true := by
      intro w hw
      rw [matchWin_self a hnd w hw]
      exact cmp_all_self w
    cases a with
    | nil => exact absurd rfl hne
    | cons x t =>
      have h1 : (x :: t).all (fun w => cmp_all w (matchWin (x :: t) w)) = true :=
        List.all_eq_true.mpr hall
      simp [winlistEq, h1]

/-- Claim C3, counterexample: the empty collection does not equal itself,
    and neither does a collection with two same-identity records of
    different geometry — reflexivity as claimed fails. -/
theorem c3_counterexample :
    winlistEq [] [] = false ∧
    winlistEq [sampleA, sampleA2] [sampleA, sampleA2] = false := by
  constructor
  · rfl
  · decide

/-- Claim C3 (amended), instantiated on concrete collections. -/
theorem c3_collection_eq_symm_refl_witness :
    winlistEq [sampleA, sampleB] [sampleA, sampleB] = true ∧
    winlistEq [sampleA] [] = winlistEq [] [sampleA] :=
  ⟨c3_collection_eq_symm_refl.2 [sampleA, sampleB] (by decide) (by
      simp [IdNodup, List.pairwise_cons]
      decide),
   c3_collection_eq_symm_refl.1 [sampleA] []⟩

/-- Claim C4: a stored record with no live identity match produces no
    action; with a live match, a move-to-desktop action is issued iff
    `cmp_desktop` fails, a geometry action with the stored geometry string
    iff `cmp_geometry` fails, and a shade toggle iff `cmp_shaded` fails,
    in the fixed order desktop, geometry, shade — so a pair differing only
    in desktop yields exactly the one move action. -/
theorem c4_restore_reconciliation :
    (∀ (cur : List Win) (sto : Win), matchWin cur sto = none →
      restoreStep cur sto = []) ∧
    (∀ (cur : List Win) (sto c : Win), matchWin cur sto = some c →
      ((WmAction.moveDesktop c.winid sto.desktop ∈ restoreStep cur sto) ↔
          cmp_desktop c (some sto) = false) ∧
      ((WmAction.adjustGeometry c.winid (geostr sto) ∈ restoreStep cur sto) ↔
          cmp_geometry c (some sto) = false) ∧
      ((WmAction.toggleShaded c.winid ∈ restoreStep cur sto) ↔
          cmp_shaded c (some sto) = false) ∧
      List.Sublist (restoreStep cur sto)
        [WmAction.moveDesktop c.winid sto.desktop,
         WmAction.adjustGeometry c.winid (geostr sto),
         WmAction.toggleShaded c.winid] ∧
      (cmp_desktop c (some sto) = false → cmp_geometry c (some sto) = true →
        cmp_shaded c (some sto) = true →
        restoreStep cur sto = [WmAction.moveDesktop c.winid sto.desktop])) := by
  constructor
  · intro cur sto h
    simp [restoreStep, h]
  · intro cur sto c h
    by_cases hd : cmp_desktop c (some sto) <;>
      by_cases hg : cmp_geometry c (some sto) <;>
        by_cases hs2 : cmp_shaded c (some sto) <;>
          simp [restoreStep, h, hd, hg, hs2]

/-- Claim C4, instantiated on the specification example: live desktop 1,
    stored desktop 2, identical geometry and shade state — exactly one
    move-to-desktop action. -/
theorem c4_restore_reconciliation_witness :
    restoreStep [sampleLive] sampleSto = [WmAction.moveDesktop ['9'] ['2']] := by
  have h := (c4_restore_reconciliation.2 [sampleLive] sampleSto sampleLive
    (by decide)).2.2.2.2 (by decide) (by decide) (by decide)
  rw [h]
  decide

/-- Claim C5: with a non-empty filtered collection that equals the most
    recent stored session and no force flag, `store` skips the write and
    succeeds (so a second identical run adds no session file); with no
    prior session, or force set, or differing collections, a new
    timestamped session file is written. -/
theorem c5_store_idempotence :
    (∀ (cur prev : List Win) (force : Bool), cur ≠ [] →
      winlistEq cur prev = true → force = false →
      storeDecision cur (some prev) force = StoreOutcome.unchangedSkip) ∧
    (∀ (cur : List Win) (force : Bool), cur ≠ [] →
      storeDecision cur none force = StoreOutcome.wroteNew) ∧
    (∀ (cur prev : List Win), cur ≠ [] →
      storeDecision cur (some prev) true = StoreOutcome.wroteNew) ∧
    (∀ (cur prev : List Win) (force : Bool), cur ≠ [] →
      winlistEq cur prev = false →
      storeDecision cur (some prev) force = StoreOutcome.wroteNew) := by
  refine ⟨?_, ?_, ?_, ?_⟩
  · intro cur prev force hne heq hf
    subst hf
    simp [storeDecision, List.isEmpty_iff, hne, heq]
  · intro cur force hne
    simp [storeDecision, List.isEmpty_iff, hne]
  · intro cur prev hne
    simp [storeDecision, List.isEmpty_iff, hne]
  · intro cur prev force hne heq
    simp [storeDecision, List.isEmpty_iff, hne, heq]

/-- Claim C5, instantiated: identical snapshot skips the write; a first
    snapshot, a forced snapshot and a changed snapshot write. -/
theorem c5_store_idempotence_witness :
    storeDecision [sampleA] (some [sampleA]) false = StoreOutcome.unchangedSkip ∧
    storeDecision [sampleA] none false = StoreOutcome.wroteNew ∧
    storeDecision [sampleA] (some [sampleA]) true = StoreOutcome.wroteNew ∧
    storeDecision [sampleA] (some [sampleB]) false = StoreOutcome.wroteNew :=
  ⟨c5_store_idempotence.1 [sampleA] [sampleA] false (by decide) (by decide) rfl,
   c5_store_idempotence.2.1 [sampleA] false (by decide),
   c5_store_idempotence.2.2.1 [sampleA] [sampleA] (by decide),
   c5_store_idempotence.2.2.2 [sampleA] [sampleB] false (by decide) (by decide)⟩

/-- The name part produced by `os.path.splitext` is never empty for a
    non-empty path. -/
theorem splitext_fst_ne_nil (fn : Str) (h : fn ≠ []) : (splitext fn).1 ≠ [] := by
  rw [splitext]
  cases hd : rfindIdx '.' fn with
  | none => simpa using h
  | some d =>
    simp only
    split
    next hcond =>
      obtain ⟨hsd, hany⟩ := hcond
      obtain ⟨c, hcmem, -⟩ := List.any_eq_true.mp hany
      have h2 : 0 < d := by
        rcases Nat.eq_zero_or_pos d with h0 | h0
        · subst h0
          simp [Nat.zero_sub] at hcmem
        · exact h0
      have h3 : 0 < (fn.take d).length := by
        rw [List.length_take]
        have h4 : 0 < fn.length := List.length_pos.mpr h
        omega
      simpa using List.ne_nil_of_length_pos h3
    next hcond =>
      simpa using h

/-- Searching the session list for the empty timestamp finds nothing when
    no stored filename is empty. -/
theorem findSession_nil (slist : List Str) (h : [] ∉ slist) :
    findSession [] slist = none := by
  induction slist with
  | nil => rfl
  | cons fn rest ih =>
    have hfn : fn ≠ [] := by
      intro he
      exact h (he ▸ List.mem_cons_self fn rest)
    have hstem : (splitext fn).1 ≠ [] := splitext_fst_ne_nil fn hfn
    rw [findSession, if_neg (by simp [hfn]), if_neg (by simp [hstem])]
    exact ih (fun hm => h (List.mem_cons_of_mem fn hm))

/-- `l[-1]` is the last element of a non-empty list. -/
theorem pyIndex_neg_one {α : Type} (l : List α) (h : l ≠ []) :
    pyIndex l (-1) = some (l.getLast h) := by
  unfold pyIndex
  have hlen : 0 < l.length := List.length_pos.mpr h
  have h1 : (-1 : Int) < 0 := by norm_num
  rw [if_pos h1]
  have h2 : ¬((-1 : Int) + l.length < 0) := by
    have : (1 : Int) ≤ l.length := by exact_mod_cast hlen
    omega
  rw [if_neg h2]
  have h3 : ((-1 : Int) + l.length).toNat = l.length - 1 := by
    have : (1 : Int) ≤ l.length := by exact_mod_cast hlen
    omega
  rw [h3, List.getLast_eq_get l h, List.get?_eq_get (by omega)]

/-- Claim C6: with an empty session list `restore` fails with the
    no-stored-sessions error before any selection; with a non-empty sorted
    list, no argument selects the last entry; an integer argument selects
    that (possibly negative) Python index, out of range giving the
    no-such-session error; and a non-integer argument selects the first
    entry matching by filename or by filename without extension, otherwise
    the no-such-session error. -/
theorem c6_session_selection :
    (∀ arg, selectSession [] arg = SelectResult.noStoredSessions) ∧
    (∀ (slist : List Str) (h : slist ≠ []),
      selectSession slist none = SelectResult.selected (slist.getLast h)) ∧
    (∀ (slist : List Str) (a : Str) (i : Int), slist ≠ [] →
      pyParseInt a = some i →
      selectSession slist (some a) =
        (match pyIndex slist i with
         | some fn => SelectResult.selected fn
         | none => SelectResult.noSuchSession)) ∧
    (∀ (slist : List Str) (a : Str), slist ≠ [] → [] ∉ slist →
      pyParseInt a = none →
      selectSession slist (some a) =
        (match findSession a slist with
         | some fn => SelectResult.selected fn
         | none => SelectResult.noSuchSession)) := by
  refine ⟨?_, ?_, ?_, ?_⟩
  · intro arg
    unfold selectSession
    cases parseWhich arg <;> simp
  · intro slist h
    simp [selectSession, parseWhich, List.isEmpty_iff, h, pyIndex_neg_one slist h]
  · intro slist a i hne hp
    simp [selectSession, parseWhich, hp, List.isEmpty_iff, hne]
  · intro slist a hne hnil hp
    by_cases ha : a = []
    · subst ha
      simp [selectSession, parseWhich, hp, List.isEmpty_iff, hne,
        findSession_nil slist hnil]
    · simp [selectSession, parseWhich, hp, List.isEmpty_iff, hne, ha]

/-- Claim C6, instantiated on a three-session list: default, negative
    index, timestamp-without-extension, and out-of-range selection. -/
theorem c6_session_selection_witness :
    selectSession [] (some ['7']) = SelectResult.noStoredSessions ∧
    selectSession [['a', '.', 'w'], ['b', '.', 'w'], ['c', '.', 'w']] none
      = SelectResult.selected (['c', '.', 'w']) ∧
    selectSession [['a', '.', 'w'], ['b', '.', 'w'], ['c', '.', 'w']] (some ['-', '2'])
      = SelectResult.selected (['b', '.', 'w']) ∧
    selectSession [['a', '.', 'w'], ['b', '.', 'w'], ['c', '.', 'w']] (some ['a'])
      = SelectResult.selected (['a', '.', 'w']) ∧
    selectSession [['a', '.', 'w'], ['b', '.', 'w'], ['c', '.', 'w']] (some ['7'])
      = SelectResult.noSuchSession := by
  refine ⟨c6_session_selection.1 (some ['7']), ?_, ?_, ?_, ?_⟩
  · have h := c6_session_selection.2.1
      [['a', '.', 'w'], ['b', '.', 'w'], ['c', '.', 'w']] (by decide)
    rw [h]
    decide
  · have h := c6_session_selection.2.2.1
      [['a', '.', 'w'], ['b', '.', 'w'], ['c', '.', 'w']] ['-', '2'] (-2)
      (by decide) (by decide)
    rw [h]
    decide
  · have h := c6_session_selection.2.2.2
      [['a', '.', 'w'], ['b', '.', 'w'], ['c', '.', 'w']] ['a']
      (by decide) (by decide) (by decide)
    rw [h]
    decide
  · have h := c6_session_selection.2.2.1
      [['a', '.', 'w'], ['b', '.', 'w'], ['c', '.', 'w']] ['7'] 7
      (by decide) (by decide)
    rw [h]
    decide

/-- Claim C7 (amended): one iteration of the filtering loop drops a window
    rejected by the selector and continues; appends an accepted window that
    is no duplicate and continues; but on a window whose (possibly
    rewritten) identity is already in the destination list, the
    `WinDuplicate` escapes the loop and is caught outside it, so the
    windows accepted so far are returned and the remaining input windows
    are not processed — the whole operation still does not fail. -/
theorem c7_duplicate_stops_loop :
    ∀ (matcher : Str → Str → Bool) (g : Gpar) (dst : List Win) (win : Win)
      (rest : List Win),
      (stepTarget matcher g win = none →
        filterLoop matcher g dst (win :: rest) = filterLoop matcher g dst rest) ∧
      (∀ w2, stepTarget matcher g win = some w2 → winIn dst w2 = false →
        filterLoop matcher g dst (win :: rest)
          = filterLoop matcher g (dst ++ [w2]) rest) ∧
      (∀ w2, stepTarget matcher g win = some w2 → winIn dst w2 = true →
        filterLoop matcher g dst (win :: rest) = dst) := by
  intro matcher g dst win rest
  by_cases hb : g.bracket
  · cases hbm : bracketMatch win.title with
    | none =>
      refine ⟨fun _ => ?_, fun w2 hw2 => ?_, fun w2 hw2 => ?_⟩
      · simp [filterLoop, hb, hbm]
      · simp [stepTarget, hb, hbm] at hw2
      · simp [stepTarget, hb, hbm] at hw2
    | some frag =>
      refine ⟨fun hn => ?_, fun w2 hw2 hin => ?_, fun w2 hw2 hin => ?_⟩
      · simp [stepTarget, hb, hbm] at hn
      · simp [stepTarget, hb, hbm] at hw2
        subst hw2
        simp [filterLoop, hb, hbm, hin]
      · simp [stepTarget, hb, hbm] at hw2
        subst hw2
        simp [filterLoop, hb, hbm, hin]
  · by_cases hc : g.classes.isEmpty
    · by_cases ht : g.titles.isEmpty
      · refine ⟨fun hn => ?_, fun w2 hw2 hin => ?_, fun w2 hw2 hin => ?_⟩
        · simp [stepTarget, hb, hc, ht] at hn
        · simp [stepTarget, hb, hc, ht] at hw2
          subst hw2
          simp [filterLoop, hb, hc, ht, hin]
        · simp [stepTarget, hb, hc, ht] at hw2
          subst hw2
          simp [filterLoop, hb, hc, ht, hin]
      · by_cases hp : patMatch matcher g.titles win.title
        · refine ⟨fun hn => ?_, fun w2 hw2 hin => ?_, fun w2 hw2 hin => ?_⟩
          · simp [stepTarget, hb, hc, ht, hp] at hn
          · simp [stepTarget, hb, hc, ht, hp] at hw2
            subst hw2
            simp [filterLoop, hb, hc, ht, hp, hin]
          · simp [stepTarget, hb, hc, ht, hp] at hw2
            subst hw2
            simp [filterLoop, hb, hc, ht, hp, hin]
        · refine ⟨fun _ => ?_, fun w2 hw2 => ?_, fun w2 hw2 => ?_⟩
          · simp [filterLoop, hb, hc, ht, hp]
          · simp [stepTarget, hb, hc, ht, hp] at hw2
          · simp [stepTarget, hb, hc, ht, hp] at hw2
    · by_cases hp : patMatch matcher g.classes win.cls
      · refine ⟨fun hn => ?_, fun w2 hw2 hin => ?_, fun w2 hw2 hin => ?_⟩
        · simp [stepTarget, hb, hc, hp] at hn
        · simp [stepTarget, hb, hc, hp] at hw2
          subst hw2
          simp [filterLoop, hb, hc, hp, hin]
        · simp [stepTarget, hb, hc, hp] at hw2
          subst hw2
          simp [filterLoop, hb, hc, hp, hin]
      · refine ⟨fun _ => ?_, fun w2 hw2 => ?_, fun w2 hw2 => ?_⟩
        · simp [filterLoop, hb, hc, hp]
        · simp [stepTarget, hb, hc, hp] at hw2
        · simp [stepTarget, hb, hc, hp] at hw2

/-- Claim C7, counterexample: with no selector configured, the input
    `[sampleA, sampleA2, sampleB]` — where `sampleA2` duplicates the
    identity of `sampleA` — filters to `[sampleA]` only: `sampleB` is never
    processed, although without the duplicate it passes the same filter. -/
theorem c7_counterexample :
    filterLoop matchNever gparNone [] [sampleA, sampleA2, sampleB] = [sampleA] ∧
    filterLoop matchNever gparNone [] [sampleA, sampleB] = [sampleA, sampleB] := by
  exact ⟨by decide, by decide⟩

/-- Claim C7 (amended), instantiated: a duplicate returns the accepted
    windows and skips the rest; a non-duplicate is appended. -/
theorem c7_duplicate_stops_loop_witness :
    filterLoop matchNever gparNone [sampleA] (sampleA2 :: [sampleB]) = [sampleA] ∧
    filterLoop matchNever gparNone [] (sampleB :: []) = [sampleB] := by
  constructor
  · exact (c7_duplicate_stops_loop matchNever gparNone [sampleA] sampleA2
      [sampleB]).2.2 sampleA2 (by decide) (by decide)
  · have h := (c7_duplicate_stops_loop matchNever gparNone [] sampleB []).2.1
      sampleB (by decide) (by decide)
    rw [h]
    decide

/-- Claim C8: removing a record with no identity match makes the uncaught
    `ValueError` from `list.index` escape (`WinList.__isub__` catches only
    `IndexError`, so the documented `WinNotFound` is never raised); when a
    match is present, the first matching record is removed. -/
theorem c8_remove_raises_valueerror :
    isub [] sampleA = Except.error RemoveError.valueErrorNotInList ∧
    isub [sampleA, sampleB] sampleA2 = Except.ok [sampleB] :=
  ⟨rfl, rfl⟩

/-- Folding the line loop of `WinList.fromstr` appends one record per
    non-empty line. -/
theorem foldl_lines (f : Str → Win) (lines : List Str) (acc : List Win) :
    lines.foldl (fun wl line => if line.isEmpty then wl else wl ++ [f line]) acc
      = acc ++ (lines.filter (fun l => !l.isEmpty)).map f := by
  induction lines generalizing acc with
  | nil => simp
  | cons l ls ih =>
    simp only [List.isEmpty_iff] at ih ⊢
    by_cases hl : l = []
    · simp [List.foldl_cons, hl, ih]
    · simp [List.foldl_cons, hl, ih]

/-- Claim C9 (amended): loading live enumerator text never fails and never
    skips: every non-empty line — however few fields it has, the missing
    ones being filled from the declared defaults — contributes exactly one
    record, and the loop continues through all remaining lines. -/
theorem c9_load_never_fails :
    ∀ buf : Str, winlistFromstr buf
      = ((splitNl buf).filter (fun l => !l.isEmpty)).map winFromstr := by
  intro buf
  cases buf with
  | nil => rfl
  | cons c rest =>
    have h := foldl_lines winFromstr (splitNl (c :: rest)) []
    simpa [winlistFromstr] using h

/-- Claim C9, counterexample: the one-field line `x` — fewer than the
    minimum parseable fields — is not skipped: it yields a record whose
    window id is `x` and whose other fields are the defaults. -/
theorem c9_counterexample :
    winlistFromstr ['x'] = [{ defaultWin with winid := ['x'] }] := by
  decide

/-- Claim C10: bracket mode makes both pattern lists irrelevant; with
    bracket off and class patterns present, the title patterns are
    irrelevant, and a window whose class matches no class pattern is
    dropped even when its title matches a title pattern. -/
theorem c10_selector_precedence :
    (∀ (matcher : Str → Str → Bool) (g : Gpar) (dst src : List Win)
       (cl tl : List Str), g.bracket = true →
      filterLoop matcher { g with classes := cl, titles := tl } dst src
        = filterLoop matcher g dst src) ∧
    (∀ (matcher : Str → Str → Bool) (g : Gpar) (dst src : List Win)
       (tl : List Str), g.bracket = false → g.classes ≠ [] →
      filterLoop matcher { g with titles := tl } dst src
        = filterLoop matcher g dst src) ∧
    (∀ (matcher : Str → Str → Bool) (g : Gpar) (dst : List Win) (win : Win)
       (rest : List Win), g.bracket = false → g.classes ≠ [] →
      patMatch matcher g.classes win.cls = false →
      patMatch matcher g.titles win.title = true →
      filterLoop matcher g dst (win :: rest) = filterLoop matcher g dst rest) := by
  refine ⟨?_, ?_, ?_⟩
  · intro matcher g dst src cl tl hb
    induction src generalizing dst with
    | nil => rfl
    | cons w rest ih =>
      simp only [hb] at ih
      cases hbm : bracketMatch w.title <;>
        simp [filterLoop, hb, hbm, ih]
  · intro matcher g dst src tl hb hcl
    have hc : g.classes.isEmpty = false := by
      simpa [List.isEmpty_iff] using hcl
    induction src generalizing dst with
    | nil => rfl
    | cons w rest ih =>
      simp only [hb] at ih
      by_cases hp : patMatch matcher g.classes w.cls <;>
        simp [filterLoop, hb, hc, hp, ih]
  · intro matcher g dst win rest hb hcl hp _ht
    have hc : g.classes.isEmpty = false := by
      simpa [List.isEmpty_iff] using hcl
    simp [filterLoop, hb, hc, hp]

/-- Claim C10, instantiated: with bracket mode the pattern lists are
    ignored; with class and title patterns together, a window matching
    only the title pattern is dropped. -/
theorem c10_selector_precedence_witness :
    filterLoop matchEq { bracket := true, classes := [['c']], titles := [['u']] } [] [sampleB]
      = filterLoop matchEq { bracket := true, classes := [], titles := [] } [] [sampleB] ∧
    filterLoop matchEq gparCT [] [sampleB] = [] := by
  constructor
  · exact c10_selector_precedence.1 matchEq
      { bracket := true, classes := [], titles := [] } [] [sampleB] [['c']] [['u']] rfl
  · have h := c10_selector_precedence.2.2 matchEq gparCT [] sampleB [] rfl
      (by decide) (by decide) (by decide)
    rw [h]
    rfl
